import Mathlib

set_option maxRecDepth 20000

namespace NuevosAddons

/-! Shallow embedding of the diagnostics engine of the `odoo_setup_assistant`
addon: the log tailer, log filter and diagnostic matcher of
`checkers/log_analyzer.py`, and the requirements checker / installer of
`checkers/addon_requirements_checker.py`.  Files are modelled as byte lists,
decoded text as character lists; external effects (filesystem, package
registry, the `pip` subprocess) are modelled as explicit inputs/oracles. -/

/-- Python list slice `l[-n:]`.  Note the Python quirk: `-0 == 0`, so for
`n = 0` the slice is `l[0:]`, i.e. the whole list, not the empty list. -/
def pySliceLast {α : Type} (l : List α) (n : Nat) : List α :=
  if n = 0 then l else l.drop (l.length - n)

/-- Python `str.splitlines` restricted to the LF terminator (byte 10), on the
byte level: a trailing terminator produces no empty final line, e.g. the bytes
of "a\nb\n" split into ["a", "b"] and "\n" splits into [""]. -/
def splitLinesB (s : List Nat) : List (List Nat) :=
  match s with
  | [] => []
  | b :: rest =>
    if b == 10 then [] :: splitLinesB rest
    else
      match splitLinesB rest with
      | [] => [[b]]
      | l :: ls => (b :: l) :: ls

/-- The backward-reading loop of `LogAnalyzer._efficient_tail`
(`log_analyzer.py` lines 77-101): while fewer than `n_lines + 1` lines are
assembled and bytes remain, read the previous 4096-byte chunk, split it into
lines, and stitch the chunk's last line onto the first retained line
(`lines_found[0] = current_lines[-1] + lines_found[0]`).  `brt` is the
source's `bytes_read_total`; the chunk is `file[end - brt - offset : end - brt]`
for `offset = min(4096, end - brt)`.  `tailMerge` is the chunk-stitching step
of lines 96-100: when both the freshly read (earlier) chunk's lines and the
retained lines are non-empty, replace the first retained line by
`current_lines[-1] + lines_found[0]` and drop the last current line, then
prepend; otherwise just prepend the current lines. -/
def tailMerge (current linesFound : List (List Nat)) : List (List Nat) :=
  match current, linesFound with
  | c :: cs, l0 :: ls => (c :: cs).dropLast ++ ((c :: cs).getLast! ++ l0) :: ls
  | cur, lf => cur ++ lf

def tailLoop (file : List Nat) (nLines : Nat) : Nat → List (List Nat) → Nat →
    List (List Nat)
  | 0, linesFound, _ => linesFound
  | fuel + 1, linesFound, brt =>
    if linesFound.length < nLines + 1 ∧ brt < file.length then
      let offset := min 4096 (file.length - brt)
      let chunk := (file.drop (file.length - (brt + offset))).take offset
      tailLoop file nLines fuel (tailMerge (splitLinesB chunk) linesFound) (brt + offset)
    else linesFound

/-- `LogAnalyzer._efficient_tail` (`log_analyzer.py` lines 59-105) on a file
given as its byte content: empty file returns `[]`, otherwise run the chunked
backward loop from the end of file and return the Python slice
`lines_found[-n_lines:]`.  The loop is run with fuel `file.length`, which can
never be exhausted: each iteration of the source's `while` increases
`bytes_read_total` by at least one and the loop stops once it reaches
`end_byte`.  The existence/permission checks and the utf-8/latin-1 decoding
(identity on the ASCII bytes used here) are the I/O boundary and are not part
of the byte-level algorithm. -/
def efficientTail (file : List Nat) (nLines : Nat) : List (List Nat) :=
  if file.length = 0 then []
  else pySliceLast (tailLoop file nLines file.length [] 0) nLines

/-- A 4098-byte file holding exactly two newline-terminated lines, "a" and
"b"*4095, arranged so that the 4096-byte chunk boundary measured from the end
of the file falls exactly after the first line's newline. -/
def tailBoundaryFile : List Nat := 97 :: 10 :: (List.replicate 4095 98 ++ [10])

example : efficientTail [97, 10] 0 = [[97]] := by decide

example : efficientTail [] 5 = [] := by decide

example : efficientTail [97, 10, 98, 10] 2 = [[97], [98]] := by decide

example : efficientTail [97, 10, 98, 10] 1 = [[98]] := by decide

example : efficientTail [104, 105, 10] 5 = [[104, 105]] := by decide

lemma splitLinesB_run_terminated (k : Nat) :
    splitLinesB (List.replicate k 98 ++ [10]) = [List.replicate k 98] := by
  induction k with
  | zero => decide
  | succ n ih => simp [List.replicate_succ, splitLinesB, ih]

lemma splitLinesB_two_heads (t : List Nat) :
    splitLinesB (97 :: 10 :: t) = [97] :: splitLinesB t := by
  simp [splitLinesB]

lemma tailBoundaryFile_lines :
    splitLinesB tailBoundaryFile = [[97], List.replicate 4095 98] := by
  rw [tailBoundaryFile, splitLinesB_two_heads, splitLinesB_run_terminated 4095]

lemma tailBoundaryFile_length : tailBoundaryFile.length = 4098 := by
  rw [tailBoundaryFile]
  simp only [List.length_cons, List.length_append, List.length_replicate, List.length_nil]

lemma tailLoop_go (file : List Nat) (n fuel : Nat) (lf : List (List Nat)) (brt : Nat)
    (h1 : lf.length < n + 1) (h2 : brt < file.length) :
    tailLoop file n (fuel + 1) lf brt =
      tailLoop file n fuel
        (tailMerge
          (splitLinesB
            ((file.drop (file.length - (brt + min 4096 (file.length - brt)))).take
              (min 4096 (file.length - brt)))) lf)
        (brt + min 4096 (file.length - brt)) := by
  rw [tailLoop, if_pos ⟨h1, h2⟩]

lemma tailLoop_stop (file : List Nat) (n fuel : Nat) (lf : List (List Nat)) (brt : Nat)
    (h : ¬(lf.length < n + 1 ∧ brt < file.length)) :
    tailLoop file n (fuel + 1) lf brt = lf := by
  rw [tailLoop, if_neg h]

lemma tailMerge_nil_right (x : List Nat) : tailMerge [x] [] = [x] := rfl

lemma tailMerge_single (a y : List Nat) (ys : List (List Nat)) :
    tailMerge [a] (y :: ys) = (a ++ y) :: ys := rfl

lemma tailBoundary_eval :
    efficientTail tailBoundaryFile 2 = [97 :: List.replicate 4095 98] := by
  have hdrop2 : tailBoundaryFile.drop 2 = List.replicate 4095 98 ++ [10] := by
    rw [tailBoundaryFile]; rfl
  have hchunk1 : (tailBoundaryFile.drop 2).take 4096 = List.replicate 4095 98 ++ [10] := by
    rw [hdrop2]
    exact List.take_of_length_le
      (by simp only [List.length_append, List.length_replicate, List.length_cons,
            List.length_nil]; omega)
  have hchunk2 : (tailBoundaryFile.drop 0).take 2 = [97, 10] := by
    rw [List.drop_zero, tailBoundaryFile]; rfl
  rw [efficientTail, tailBoundaryFile_length, if_neg (by omega)]
  rw [show (4098 : Nat) = 4097 + 1 from rfl,
    tailLoop_go _ _ _ _ _ (by decide) (by rw [tailBoundaryFile_length]; omega),
    tailBoundaryFile_length]
  rw [show min 4096 ((4098 : Nat) - 0) = 4096 from rfl]
  rw [show (4098 : Nat) - (0 + 4096) = 2 from rfl,
    show (0 : Nat) + 4096 = 4096 from rfl]
  rw [hchunk1, splitLinesB_run_terminated 4095, tailMerge_nil_right]
  rw [show (4097 : Nat) = 4096 + 1 from rfl,
    tailLoop_go _ _ _ _ _ (by decide) (by rw [tailBoundaryFile_length]; omega),
    tailBoundaryFile_length]
  rw [show min 4096 ((4098 : Nat) - 4096) = 2 from rfl]
  rw [show (4098 : Nat) - (4096 + 2) = 0 from rfl,
    show (4096 : Nat) + 2 = 4098 from rfl]
  rw [hchunk2, show splitLinesB [97, 10] = [[97]] from rfl,
    tailMerge_single, show [97] ++ List.replicate 4095 98 = 97 :: List.replicate 4095 98 from rfl]
  rw [show (4096 : Nat) = 4095 + 1 from rfl,
    tailLoop_stop _ _ _ _ _
      (by rw [tailBoundaryFile_length]; exact fun h => absurd h.2 (by omega))]
  rw [pySliceLast, if_neg (by omega),
    show List.length [97 :: List.replicate 4095 98] - 2 = 0 from rfl, List.drop_zero]

/-- C1: the claim says tailing a file of exactly N newline-terminated lines
with a request for N returns all N lines unmodified in original order, even
when a 4KB chunk boundary falls at a line boundary.  The code violates this:
`tailBoundaryFile` consists of exactly the two newline-terminated lines "a"
and "b"*4095 (first conjunct), and the 4096-byte chunk boundary from the end
of the file falls directly after the first line's newline, so the
unconditional stitch `lines_found[0] = current_lines[-1] + lines_found[0]`
merges the two complete lines and `_efficient_tail(file, 2)` returns the
single line "a" + "b"*4095 (second conjunct) instead of the file's two lines
(third conjunct). -/
theorem C1_tail_merges_lines_at_chunk_boundary :
    splitLinesB tailBoundaryFile = [[97], List.replicate 4095 98] ∧
    efficientTail tailBoundaryFile 2 = [97 :: List.replicate 4095 98] ∧
    efficientTail tailBoundaryFile 2 ≠ splitLinesB tailBoundaryFile := by
  refine ⟨tailBoundaryFile_lines, tailBoundary_eval, ?_⟩
  rw [tailBoundaryFile_lines, tailBoundary_eval]
  intro h
  have hlen := congrArg List.length h
  simp only [List.length_cons, List.length_nil] at hlen
  omega

/-- C2: the claim says the tailer returns at most N lines for every requested
count N including N = 0.  The code violates this at N = 0: on the two-byte
file "a\n" a request for 0 lines returns the one line "a", because the final
Python slice `lines_found[-n_lines:]` is `lines_found[-0:]`, i.e. the whole
assembled list. -/
theorem C2_tail_zero_request_returns_lines :
    efficientTail [97, 10] 0 = [[97]] ∧ ¬(efficientTail [97, 10] 0).length ≤ 0 := by
  decide

/-! Character-level helpers mirroring the Python string operations used by
`log_analyzer.py`.  Decoded log text is modelled as `List Char`. -/

/-- Helper for the Python substring test: the needle occurs at the head of
the haystack. -/
def headMatches : List Char → List Char → Bool
  | _, [] => true
  | [], _ :: _ => false
  | c :: s, d :: p => c == d && headMatches s p

/-- Python substring test `needle in haystack`. -/
def containsSub : List Char → List Char → Bool
  | [], needle => needle.isEmpty
  | c :: s, needle => headMatches (c :: s) needle || containsSub s needle

/-- Python `str.lower` on the ASCII log text. -/
def lowerL (s : List Char) : List Char := s.map Char.toLower

/-- Python `str.upper` on the ASCII log text. -/
def upperL (s : List Char) : List Char := s.map Char.toUpper

/-! Model of `LOG_LINE_REGEX` (`log_analyzer.py` lines 13-20):
`^(\d{4}-\d{2}-\d{2} \d{2}:\d{2}:\d{2},\d{3})\s+(\d+)\s+`
`(INFO|WARNING|ERROR|CRITICAL|DEBUG|TEST)\s+([a-zA-Z0-9_?.-]*)\s+([^:]+):\s+(.*)$`
as a matcher on character lists.  Up to and including the level keyword the
pattern is deterministic (a whitespace run is never followed by a piece that
could start with whitespace, digits/keywords never start with whitespace, and
the keywords are pairwise non-overlapping), so maximal-run consumption is
exact; after the level the `\s+ class* \s+ [^:]+ :` section genuinely needs
the regex engine's backtracking, which is modelled by enumerating every split
of each quantified piece. -/

/-- Whitespace class of the regex `\s`. -/
def isWSC (c : Char) : Bool :=
  c = ' ' || c = '\t' || c = '\n' || c = '\r' || c = '\x0b' || c = '\x0c'

/-- Character class `[a-zA-Z0-9_?.-]` of the `database` group. -/
def isDbChar (c : Char) : Bool :=
  c.isAlphanum || c = '_' || c = '?' || c = '.' || c = '-'

/-- Consume exactly `n` decimal digits. -/
def eatDigits : Nat → List Char → Option (List Char)
  | 0, s => some s
  | _ + 1, [] => none
  | n + 1, c :: s => if c.isDigit then eatDigits n s else none

/-- Consume one expected character. -/
def eatChar (c : Char) : List Char → Option (List Char)
  | [] => none
  | d :: s => if d == c then some s else none

/-- Consume an exact literal. -/
def eatLit : List Char → List Char → Option (List Char)
  | [], s => some s
  | _ :: _, [] => none
  | c :: p, d :: s => if d == c then eatLit p s else none

/-- Consume a maximal non-empty run of characters satisfying `p`: the
deterministic reading of `\s+` / `\d+` at positions where the following
pattern piece cannot consume a character of the class. -/
def eatRun1 (p : Char → Bool) : List Char → Option (List Char)
  | [] => none
  | c :: s => if p c then some (s.dropWhile p) else none

/-- All suffixes reachable by consuming at least one `p`-character: the
backtracking choices of a `X+` piece. -/
def runSplits1 (p : Char → Bool) : List Char → List (List Char)
  | [] => []
  | c :: s => if p c then s :: runSplits1 p s else []

/-- All suffixes reachable by consuming zero or more `p`-characters: the
backtracking choices of a `X*` piece. -/
def runSplits0 (p : Char → Bool) (s : List Char) : List (List Char) :=
  s :: runSplits1 p s

/-- The final piece `.*$`: `.` does not cross a newline, and `$` asserts end
of input or a newline that is the final character. -/
def msgMatches (s : List Char) : Bool :=
  !(s.contains '\n') || (s.getLast? == some '\n' && !(s.dropLast.contains '\n'))

/-- The regex tail `\s+[a-zA-Z0-9_?.-]*\s+[^:]+:\s+.*$` after the level
keyword, with full backtracking over the quantified pieces. -/
def logTailMatches (s : List Char) : Bool :=
  (runSplits1 isWSC s).any fun s1 =>
    (runSplits0 isDbChar s1).any fun s2 =>
      (runSplits1 isWSC s2).any fun s3 =>
        (runSplits1 (fun c => !(c == ':')) s3).any fun s4 =>
          match s4 with
          | ':' :: s5 => (runSplits1 isWSC s5).any fun s6 => msgMatches s6
          | _ => false

/-- The timestamp piece `\d{4}-\d{2}-\d{2} \d{2}:\d{2}:\d{2},\d{3}`. -/
def eatTimestamp (s : List Char) : Option (List Char) :=
  ((((((((((((eatDigits 4 s).bind (eatChar '-')).bind (eatDigits 2)).bind
    (eatChar '-')).bind (eatDigits 2)).bind (eatChar ' ')).bind
    (eatDigits 2)).bind (eatChar ':')).bind (eatDigits 2)).bind
    (eatChar ':')).bind (eatDigits 2)).bind (eatChar ',')).bind (eatDigits 3)

/-- The level keywords, in the alternation order of the source regex. -/
def LOG_LEVELS : List (List Char) :=
  ["INFO".toList, "WARNING".toList, "ERROR".toList, "CRITICAL".toList,
   "DEBUG".toList, "TEST".toList]

/-- The alternation `(INFO|WARNING|ERROR|CRITICAL|DEBUG|TEST)`, returning the
captured level and the rest. -/
def eatLevel : List (List Char) → List Char → Option (List Char × List Char)
  | [], _ => none
  | kw :: kws, s =>
    match eatLit kw s with
    | some rest => some (kw, rest)
    | none => eatLevel kws s

/-- `LOG_LINE_REGEX.match(line)`, modelled as returning the captured `level`
group on success (the only group the filter reads) and `none` when the line
does not match the structured grammar. -/
def parseLogLine (line : List Char) : Option (List Char) :=
  (eatTimestamp line).bind fun s1 =>
  (eatRun1 isWSC s1).bind fun s2 =>
  (eatRun1 Char.isDigit s2).bind fun s3 =>
  (eatRun1 isWSC s3).bind fun s4 =>
  (eatLevel LOG_LEVELS s4).bind fun ls =>
  if logTailMatches ls.2 then some ls.1 else none

example :
    parseLogLine "2023-10-27 10:30:00,123 12345 INFO my_db werkzeug: GET /web 200 OK".toList
      = some "INFO".toList := by decide

example : parseLogLine "hello world".toList = none := by decide

example : parseLogLine "2023-10-27 10:30:00,123 999 ERROR ? odoo.sql_db: bad query".toList
    = some "ERROR".toList := by decide

/-- Truthiness-guarded keyword test of `get_filtered_log_lines` (lines
130-133): Python `if keyword_filter:` skips the test when the filter is
`None` or the empty string; otherwise the lower-cased keyword must occur in
the lower-cased line. -/
def keywordOk (keywordFilter : Option (List Char)) (line : List Char) : Bool :=
  match keywordFilter with
  | none => true
  | some kw => if kw.isEmpty then true else containsSub (lowerL line) (lowerL kw)

/-- Per-line filter of `get_filtered_log_lines` (lines 127-147): the keyword
test runs first; the level grammar is consulted only when the keyword test
passed and the level filter is not 'ALL'; a parsed line passes when its level
equals the filter (upper-cased comparison); an unparsed line passes exactly
when the filter is the literal 'INFO' or 'DEBUG'. -/
def linePasses (levelFilter : List Char) (keywordFilter : Option (List Char))
    (line : List Char) : Bool :=
  let p := keywordOk keywordFilter line
  if p && !(levelFilter == "ALL".toList) then
    match parseLogLine line with
    | some lvl => upperL lvl == upperL levelFilter
    | none => levelFilter == "INFO".toList || levelFilter == "DEBUG".toList
  else p

/-- `get_filtered_log_lines` (`log_analyzer.py` lines 123-152) downstream of
the tail fetch: the fetched raw lines are filtered per line; an empty fetch
reports success with a placeholder message; a non-empty fetch whose lines are
all filtered out reports `empty_after_filter` with an explanatory message.
The configuration check and the fetch exception handlers (lines 111-121) are
the I/O boundary and are modelled by taking the fetched lines as input. -/
def getFilteredLogLines (rawLines : List (List Char)) (levelFilter : List Char)
    (keywordFilter : Option (List Char)) : List (List Char) × List Char :=
  if rawLines.isEmpty then
    (["Log file is empty or no lines fetched.".toList], "success".toList)
  else
    let filtered := rawLines.filter (linePasses levelFilter keywordFilter)
    if filtered.isEmpty then
      (["No log entries found matching the current filter criteria.".toList],
       "empty_after_filter".toList)
    else (filtered, "success".toList)

/-- C8: a line failing the case-insensitive keyword test is dropped with the
same verdict for every level filter, i.e. without the level grammar
influencing the outcome; and a line passing the keyword test that does not
match the structured grammar is kept exactly when the level filter is broad:
the literal 'ALL' (no restriction) or one of the two most permissive levels
'INFO' / 'DEBUG'.  In particular an unparseable line never survives a
stricter specific-severity filter. -/
theorem C8_keyword_short_circuit_and_unparseable_lines
    (line : List Char) (kw : Option (List Char)) :
    (keywordOk kw line = false → ∀ lf, linePasses lf kw line = false) ∧
    (∀ lf, keywordOk kw line = true → parseLogLine line = none →
      (linePasses lf kw line = true ↔
        lf = "ALL".toList ∨ lf = "INFO".toList ∨ lf = "DEBUG".toList)) := by
  constructor
  · intro hk lf
    simp only [linePasses, hk, Bool.false_and, Bool.false_eq_true, if_false]
  · intro lf hk hp
    simp only [linePasses, hk, hp, Bool.true_and]
    by_cases hA : lf = "ALL".toList
    · simp [hA]
    · have hbeq : (lf == "ALL".toList) = false := by
        simpa using hA
      simp only [hbeq, Bool.not_false, if_true]
      simp only [Bool.or_eq_true, beq_iff_eq]
      constructor
      · rintro (h | h) <;> simp [h]
      · rintro (h | h | h)
        · exact absurd h hA
        · exact Or.inl h
        · exact Or.inr h

/-- Witness for C8 at concrete inputs: the line "hello world" with keyword
"zzz" fails the keyword test and is dropped under the 'ERROR' filter, and the
same unparseable line with no keyword is dropped under 'ERROR' since 'ERROR'
is not one of ALL/INFO/DEBUG. -/
theorem C8_keyword_short_circuit_and_unparseable_lines_witness :
    (linePasses "ERROR".toList (some "zzz".toList) "hello world".toList = false) ∧
    (linePasses "ERROR".toList none "hello world".toList = true ↔
      ("ERROR".toList = "ALL".toList ∨ "ERROR".toList = "INFO".toList ∨
        "ERROR".toList = "DEBUG".toList)) :=
  ⟨(C8_keyword_short_circuit_and_unparseable_lines "hello world".toList
      (some "zzz".toList)).1 (by decide) "ERROR".toList,
   (C8_keyword_short_circuit_and_unparseable_lines "hello world".toList none).2
      "ERROR".toList (by decide) (by decide)⟩

/-- C9: with level filter 'ALL' and no keyword, the filter stage is the
identity on every non-empty list of retrieved lines, and the status is
'success'. -/
theorem C9_filter_identity_on_broad_filters
    (raw : List (List Char)) (h : raw ≠ []) :
    getFilteredLogLines raw "ALL".toList none = (raw, "success".toList) := by
  have hpass : ∀ l ∈ raw, linePasses "ALL".toList none l = true := by
    intro l _
    rfl
  have hfilter : raw.filter (linePasses "ALL".toList none) = raw :=
    List.filter_eq_self.mpr hpass
  obtain ⟨a, t, rfl⟩ : ∃ a t, raw = a :: t := by
    cases raw with
    | nil => exact absurd rfl h
    | cons a t => exact ⟨a, t, rfl⟩
  simp only [getFilteredLogLines, hfilter, List.isEmpty_cons, Bool.false_eq_true,
    if_false]

/-- Witness for C9 at a concrete input. -/
theorem C9_filter_identity_on_broad_filters_witness :
    getFilteredLogLines ["hello".toList] "ALL".toList none
      = (["hello".toList], "success".toList) :=
  C9_filter_identity_on_broad_filters ["hello".toList] (by simp)

/-- C10: when the fetch produced a non-empty list of raw lines but every line
is removed by the filters, the result is the one-element explanatory message
with the distinguished status 'empty_after_filter' — never an empty list. -/
theorem C10_empty_after_filter_status
    (raw : List (List Char)) (lf : List Char) (kw : Option (List Char))
    (h : raw ≠ []) (hall : ∀ l ∈ raw, linePasses lf kw l = false) :
    getFilteredLogLines raw lf kw =
      (["No log entries found matching the current filter criteria.".toList],
       "empty_after_filter".toList) ∧
    (getFilteredLogLines raw lf kw).1 ≠ [] := by
  have hfilter : raw.filter (linePasses lf kw) = [] := by
    apply List.filter_eq_nil_iff.mpr
    intro a ha
    simp [hall a ha]
  obtain ⟨a, t, rfl⟩ : ∃ a t, raw = a :: t := by
    cases raw with
    | nil => exact absurd rfl h
    | cons a t => exact ⟨a, t, rfl⟩
  refine ⟨?_, ?_⟩ <;>
    simp [getFilteredLogLines, hfilter]

/-- Witness for C10 at a concrete input: the unparseable line "hello" is
filtered out by the strict 'ERROR' filter, and the stage reports the
explanatory message with status 'empty_after_filter'. -/
theorem C10_empty_after_filter_status_witness :
    getFilteredLogLines ["hello".toList] "ERROR".toList none =
      (["No log entries found matching the current filter criteria.".toList],
       "empty_after_filter".toList) ∧
    (getFilteredLogLines ["hello".toList] "ERROR".toList none).1 ≠ [] :=
  C10_empty_after_filter_status ["hello".toList] "ERROR".toList none
    (by simp) (by decide)

/-! Model of `diagnose_logs` (`log_analyzer.py` lines 154-177).  A diagnostic
rule is abstracted as a function `List Char → Option (List Char)` combining
the regex search and the hint computation of a `DIAGNOSTIC_PATTERNS` entry
(a static hint string or a hint-generating function of the match): the sweep
and its deduplication depend only on the final hint text a rule produces for
a line, which is exactly this function's output. -/

/-- Formatting of an emitted hint (line 171):
`f"- {hint_text} (related to log: ...{line[-150:]})"`. -/
def formatHint (hintText line : List Char) : List Char :=
  "- ".toList ++ hintText ++ " (related to log: ...".toList ++
    pySliceLast line 150 ++ ")".toList

/-- Candidate test of line 163: only lines containing a severity marker are
diagnosed. -/
def isDiagCandidate (line : List Char) : Bool :=
  containsSub line "ERROR".toList || containsSub line "CRITICAL".toList ||
    containsSub line "WARNING".toList

/-- Fallback hint of line 176. -/
def noIssueHint : List Char :=
  ("No specific common issues automatically diagnosed from the current log view. " ++
    "Review logs manually for details.").toList

/-- Sweep state of `diagnose_logs`: the emitted hint strings (`hints`), the
already-emitted hint texts in emission order (the source's `unique_hints`
set), and an instrumentation `trace` recording the (hint text, line) pair of
each emission, used to state deduplication by hint text. -/
structure DiagState where
  hints : List (List Char)
  uniq : List (List Char)
  trace : List (List Char × List Char)

/-- Inner loop body (lines 166-172): on a rule match, emit the hint only if
its text has not been emitted in this run. -/
def diagRuleStep (line : List Char) (st : DiagState)
    (rule : List Char → Option (List Char)) : DiagState :=
  match rule line with
  | none => st
  | some hintText =>
    if st.uniq.contains hintText then st
    else ⟨st.hints ++ [formatHint hintText line], st.uniq ++ [hintText],
          st.trace ++ [(hintText, line)]⟩

/-- Outer loop body (lines 161-172): non-candidate lines are skipped; every
rule is tried against a candidate line (the `break` is commented out). -/
def diagLineStep (rules : List (List Char → Option (List Char)))
    (st : DiagState) (line : List Char) : DiagState :=
  if isDiagCandidate line then rules.foldl (diagRuleStep line) st else st

/-- The full sweep over the log lines, from the empty state. -/
def diagSweep (rules : List (List Char → Option (List Char)))
    (logLines : List (List Char)) : DiagState :=
  logLines.foldl (diagLineStep rules) ⟨[], [], []⟩

/-- `diagnose_logs` (lines 154-177): the swept hints, or the single fallback
hint when the sweep emitted nothing. -/
def diagnoseLogs (rules : List (List Char → Option (List Char)))
    (logLines : List (List Char)) : List (List Char) :=
  let st := diagSweep rules logLines
  if st.hints.isEmpty then [noIssueHint] else st.hints

/-- Invariant of the sweep: `unique_hints` is exactly the set of emitted hint
texts, each emitted hint is the formatting of its trace entry, and the
emitted hint texts are pairwise distinct. -/
def DiagInv (st : DiagState) : Prop :=
  st.uniq = st.trace.map Prod.fst ∧
  st.hints = st.trace.map (fun p => formatHint p.1 p.2) ∧
  (st.trace.map Prod.fst).Nodup

lemma foldl_preserves {α σ : Type} {P : σ → Prop} (f : σ → α → σ)
    (h : ∀ s a, P s → P (f s a)) :
    ∀ (l : List α) (s : σ), P s → P (l.foldl f s) := by
  intro l
  induction l with
  | nil => intro s hs; exact hs
  | cons a t ih => intro s hs; exact ih (f s a) (h s a hs)

lemma diagInv_ruleStep (line : List Char) (rule : List Char → Option (List Char))
    (st : DiagState) (h : DiagInv st) : DiagInv (diagRuleStep line st rule) := by
  obtain ⟨hu, hh, hn⟩ := h
  unfold diagRuleStep
  cases hr : rule line with
  | none => exact ⟨hu, hh, hn⟩
  | some t =>
    dsimp only
    by_cases hc : st.uniq.contains t = true
    · rw [if_pos hc]; exact ⟨hu, hh, hn⟩
    · rw [if_neg hc]
      refine ⟨?_, ?_, ?_⟩
      · simp [hu]
      · simp [hh]
      · simp only [List.map_append, List.map_cons, List.map_nil]
        rw [List.nodup_append]
        refine ⟨hn, List.nodup_singleton t, ?_⟩
        intro a ha hb
        simp only [List.mem_singleton] at hb
        subst hb
        rw [hu] at hc
        exact hc (List.elem_eq_true_of_mem ha)

lemma diagInv_lineStep (rules : List (List Char → Option (List Char)))
    (line : List Char) (st : DiagState) (h : DiagInv st) :
    DiagInv (diagLineStep rules st line) := by
  unfold diagLineStep
  by_cases hc : isDiagCandidate line = true
  · rw [if_pos hc]
    exact foldl_preserves (diagRuleStep line)
      (fun s r hs => diagInv_ruleStep line r s hs) rules st h
  · rw [if_neg hc]; exact h

lemma diagSweep_inv (rules : List (List Char → Option (List Char)))
    (logLines : List (List Char)) : DiagInv (diagSweep rules logLines) :=
  foldl_preserves (diagLineStep rules)
    (fun s l hs => diagInv_lineStep rules l s hs) logLines ⟨[], [], []⟩
    ⟨rfl, rfl, List.nodup_nil⟩

/-- C7: in one run of `diagnose_logs`, no two emitted hints carry identical
hint text: the hint texts recorded by the sweep are pairwise distinct, every
emitted hint string is the formatting of its recorded (text, line) pair, and
the returned list is either those hints or the single fallback hint.  This
holds for every rule set and line list, in particular when several lines
match one rule or distinct rules produce the same text. -/
theorem C7_diagnose_hints_deduplicated_by_text
    (rules : List (List Char → Option (List Char))) (logLines : List (List Char)) :
    ((diagSweep rules logLines).trace.map Prod.fst).Nodup ∧
    (diagSweep rules logLines).hints =
      (diagSweep rules logLines).trace.map (fun p => formatHint p.1 p.2) ∧
    diagnoseLogs rules logLines =
      (if (diagSweep rules logLines).hints.isEmpty then [noIssueHint]
       else (diagSweep rules logLines).trace.map (fun p => formatHint p.1 p.2)) := by
  obtain ⟨hu, hh, hn⟩ := diagSweep_inv rules logLines
  refine ⟨hn, hh, ?_⟩
  rw [diagnoseLogs, ← hh]

/-! Model of the version resolver of `addon_requirements_checker.py`
(`PACKAGING_LIB_AVAILABLE = True` mode, the mode in which the `packaging`
imports at lines 17-21 succeed).  Requirement specs, package names and
messages are `List Char`; versions are the parsed release-segment lists
(`List Nat`) that `packaging.version.parse` yields for the plain numeric
dot-separated versions in scope here (no epochs, pre-releases or local
segments).  The installed-package registry (`importlib.metadata`) is an
oracle mapping a canonicalized distribution name to its installed parsed
version, `none` when the distribution is absent. -/

/-- Version values: release segment lists, e.g. `1.5.0 ↦ [1, 5, 0]`. -/
abbrev Version := List Nat

/-- Separator class of `canonicalize_name`'s regex `[-_.]+`. -/
def isSepChar (c : Char) : Bool := c = '-' || c = '_' || c = '.'

/-- Helper of `canonicalizeName`: the flag records whether the previous
character belonged to a separator run already replaced by `-`. -/
def canonAux : Bool → List Char → List Char
  | _, [] => []
  | prevSep, c :: s =>
    if isSepChar c then
      if prevSep then canonAux true s else '-' :: canonAux true s
    else Char.toLower c :: canonAux false s

/-- `packaging.utils.canonicalize_name`: `re.sub(r"[-_.]+", "-", name).lower()`. -/
def canonicalizeName (s : List Char) : List Char := canonAux false s

example : canonicalizeName "Foo._-Bar".toList = "foo-bar".toList := by decide

/-- Release comparison with right zero-padding, the `packaging` ordering on
plain release versions (`1.5 == 1.5.0`). -/
def verCmp : List Nat → List Nat → Ordering
  | [], bs => if bs.all (fun x => x = 0) then .eq else .lt
  | a :: as, [] => if a ≠ 0 then .gt else verCmp as []
  | a :: as, b :: bs => if a < b then .lt else if b < a then .gt else verCmp as bs

/-- Comparator operators of a version specifier. -/
inductive VSpecOp where
  | veq | vne | vle | vge | vlt | vgt | vcompat | varb
deriving DecidableEq

/-- One comparator/version pair of a specifier set. -/
structure VSpec where
  op : VSpecOp
  ver : Version
deriving DecidableEq

/-- Membership of an installed version in one specifier, `packaging`
semantics on release versions; `~=` (compatible release, only parsed with at
least two segments) means at least the stated version and strictly below the
bumped prefix; `===` is arbitrary equality without padding. -/
def verSatisfies (v : Version) (sp : VSpec) : Bool :=
  match sp.op with
  | .veq => verCmp v sp.ver == .eq
  | .vne => !(verCmp v sp.ver == .eq)
  | .vle => !(verCmp v sp.ver == .gt)
  | .vge => !(verCmp v sp.ver == .lt)
  | .vlt => verCmp v sp.ver == .lt
  | .vgt => verCmp v sp.ver == .gt
  | .vcompat =>
    !(verCmp v sp.ver == .lt) &&
      verCmp v (sp.ver.dropLast.dropLast ++ [sp.ver.dropLast.getLast! + 1]) == .lt
  | .varb => v == sp.ver

/-- `installed_version in required_version_specifier`: a `SpecifierSet` is a
conjunction of its specifiers. -/
def specSetContains (sps : List VSpec) (v : Version) : Bool :=
  sps.all (verSatisfies v)

/-- Decimal rendering of a number. -/
def natChars (n : Nat) : List Char := (Nat.repr n).toList

/-- `str(Version)`: dot-joined release segments. -/
def verChars : Version → List Char
  | [] => []
  | [n] => natChars n
  | n :: rest => natChars n ++ '.' :: verChars rest

example : verChars [1, 5, 0] = "1.5.0".toList := by decide

/-- `str` of one specifier: operator text followed by the version text. -/
def specChars (sp : VSpec) : List Char :=
  (match sp.op with
   | .veq => "==".toList
   | .vne => "!=".toList
   | .vle => "<=".toList
   | .vge => ">=".toList
   | .vlt => "<".toList
   | .vgt => ">".toList
   | .vcompat => "~=".toList
   | .varb => "===".toList) ++ verChars sp.ver

/-- Code-point lexicographic comparison used to sort specifier strings. -/
def chListLE : List Char → List Char → Bool
  | [], _ => true
  | _ :: _, [] => false
  | c :: cs, d :: ds => c < d || (c = d && chListLE cs ds)

def insertSortedChL (x : List Char) : List (List Char) → List (List Char)
  | [] => [x]
  | y :: ys => if chListLE x y then x :: y :: ys else y :: insertSortedChL x ys

def sortChL (l : List (List Char)) : List (List Char) :=
  l.foldr insertSortedChL []

/-- Comma-join of rendered pieces. -/
def joinComma : List (List Char) → List Char
  | [] => []
  | [x] => x
  | x :: rest => x ++ ',' :: joinComma rest

/-- `str(SpecifierSet)`: the sorted, comma-joined specifier strings. -/
def specSetChars (sps : List VSpec) : List Char :=
  joinComma (sortChL (sps.map specChars))

example : verCmp [1, 5, 0] [1, 2] = .gt := by decide

example : verCmp [1, 5] [1, 5, 0] = .eq := by decide

/-- Name class of a requirement: letters, digits and `-_.`. -/
def isNameChar (c : Char) : Bool := c.isAlphanum || c = '-' || c = '_' || c = '.'

/-- One comparator operator, longest first as the PEP 440 grammar requires. -/
def parseOp : List Char → Option (VSpecOp × List Char)
  | '=' :: '=' :: '=' :: r => some (.varb, r)
  | '=' :: '=' :: r => some (.veq, r)
  | '>' :: '=' :: r => some (.vge, r)
  | '<' :: '=' :: r => some (.vle, r)
  | '!' :: '=' :: r => some (.vne, r)
  | '~' :: '=' :: r => some (.vcompat, r)
  | '>' :: r => some (.vgt, r)
  | '<' :: r => some (.vlt, r)
  | _ => none

/-- Split on `.` characters (groups of a version text). -/
def splitOnDot : List Char → List (List Char)
  | [] => [[]]
  | c :: s =>
    if c == '.' then [] :: splitOnDot s
    else
      match splitOnDot s with
      | [] => [[c]]
      | g :: gs => (c :: g) :: gs

/-- Numeric value of a digit group. -/
def digitsVal (g : List Char) : Nat :=
  g.foldl (fun acc c => acc * 10 + (c.toNat - 48)) 0

/-- Parse a version text into release segments; fails on anything but
non-empty dot-separated digit groups (the subset of PEP 440 version syntax
used by the requirements in scope; anything else counts as a malformed
spec, as `packaging.requirements.Requirement` raises on it). -/
def parseVersionChars (s : List Char) : Option Version :=
  if s.isEmpty then none
  else
    let groups := splitOnDot s
    if groups.all (fun g => !g.isEmpty && g.all Char.isDigit) then
      some (groups.map digitsVal)
    else none

/-- Version-token class: digits and dots. -/
def isVerChar (c : Char) : Bool := c.isDigit || c = '.'

/-- Comma-separated comparator/version pairs, with fuel bounded by the input
length (each pair consumes at least its operator character, so the fuel never
runs out on the initial call).  A `~=` with fewer than two segments is
rejected, as `packaging` does. -/
def parseSpecifiers : Nat → List Char → Option (List VSpec)
  | 0, _ => none
  | fuel + 1, s =>
    match parseOp (s.dropWhile isWSC) with
    | none => none
    | some (op, r) =>
      let r1 := r.dropWhile isWSC
      match parseVersionChars (r1.takeWhile isVerChar) with
      | none => none
      | some v =>
        if op = .vcompat ∧ v.length < 2 then none
        else
          let rest := (r1.dropWhile isVerChar).dropWhile isWSC
          match rest with
          | [] => some [⟨op, v⟩]
          | ',' :: r2 => (parseSpecifiers fuel r2).map (fun sps => ⟨op, v⟩ :: sps)
          | _ => none

/-- `packaging.requirements.Requirement(package_spec)` on the PEP 508 subset
in scope (name plus optional version specifiers, no extras/markers/urls):
`none` models the constructor raising on a malformed spec, `some` carries
`req.name` and `req.specifier`. -/
def parseRequirement (s : List Char) : Option (List Char × List VSpec) :=
  let s0 := s.dropWhile isWSC
  let name := s0.takeWhile isNameChar
  let rest := s0.dropWhile isNameChar
  if name.isEmpty then none
  else
    let rest1 := rest.dropWhile isWSC
    if rest1.isEmpty then some (name, [])
    else (parseSpecifiers (rest1.length + 1) rest1).map (fun sps => (name, sps))

example : parseRequirement "libfoo>=1.2,<2.0".toList
    = some ("libfoo".toList, [⟨.vge, [1, 2]⟩, ⟨.vlt, [2, 0]⟩]) := by decide

example : parseRequirement "libbar".toList = some ("libbar".toList, []) := by decide

example : parseRequirement "foo==".toList = none := by decide

example : parseRequirement ">=1.2".toList = none := by decide

/-- Python truncation before the first occurrence of `sub`:
`s.split(sub)[0]`. -/
def takeBefore (sub : List Char) : List Char → List Char
  | [] => []
  | c :: s => if headMatches (c :: s) sub then [] else c :: takeBefore sub s

/-- Python `str.strip()`. -/
def stripChars (s : List Char) : List Char :=
  ((s.dropWhile isWSC).reverse.dropWhile isWSC).reverse

/-- Best-effort name extraction for a malformed spec
(`addon_requirements_checker.py` line 121 and line 153):
`package_spec.split('==')[0].split('>=')[0].split('<=')[0].split('!=')[0]`
`.split('~=')[0].split('>')[0].split('<')[0].strip()`. -/
def extractNameHeuristic (spec : List Char) : List Char :=
  stripChars (takeBefore "<".toList (takeBefore ">".toList (takeBefore "~=".toList
    (takeBefore "!=".toList (takeBefore "<=".toList (takeBefore ">=".toList
      (takeBefore "==".toList spec)))))))

example : extractNameHeuristic "foo==".toList = "foo".toList := by decide

example : extractNameHeuristic " libfoo >= 1.2 ".toList = "libfoo".toList := by decide

/-- Outcome triple of `_check_package_installed*`:
`(is_installed, status_msg, required_version_specifier_str)`. -/
structure CheckOutcome where
  isInstalled : Bool
  statusMsg : List Char
  reqSpec : Option (List Char)
deriving DecidableEq

/-- `"Not installed"`. -/
def notInstalledMsg : List Char := "Not installed".toList

/-- The version-conflict status text of line 139. -/
def conflictMsg (installed : Version) (sps : List VSpec) : List Char :=
  "Version conflict: Installed ".toList ++ verChars installed ++
    ", Required ".toList ++ specSetChars sps

/-- `_check_package_installed_advanced` (lines 111-146): parse the spec (on
failure degrade to heuristic name extraction with no specifier), look the
canonicalized name up in the registry, and classify: absent → not installed;
present with a non-empty specifier → satisfied or version conflict by
constraint membership; present otherwise → satisfied. -/
def checkPackageInstalledAdvanced (registry : List Char → Option Version)
    (packageSpec : List Char) : CheckOutcome :=
  let parsed := parseRequirement packageSpec
  let nameNorm :=
    match parsed with
    | some nsp => canonicalizeName nsp.1
    | none => canonicalizeName (extractNameHeuristic packageSpec)
  let reqSpecifier : List VSpec :=
    match parsed with
    | some nsp => nsp.2
    | none => []
  match registry nameNorm with
  | none =>
    ⟨false, notInstalledMsg,
      if reqSpecifier.isEmpty then none else some (specSetChars reqSpecifier)⟩
  | some installed =>
    if !reqSpecifier.isEmpty then
      if specSetContains reqSpecifier installed then
        ⟨true, verChars installed, some (specSetChars reqSpecifier)⟩
      else
        ⟨false, conflictMsg installed reqSpecifier, some (specSetChars reqSpecifier)⟩
    else ⟨true, verChars installed, none⟩

/-- `_check_package_installed` (lines 148-157) in the
`PACKAGING_LIB_AVAILABLE = True` mode: dispatch to the advanced check. -/
def checkPackageInstalled (registry : List Char → Option Version)
    (packageSpec : List Char) : CheckOutcome :=
  checkPackageInstalledAdvanced registry packageSpec

/-- Classification predicate for C5: the outcome is exactly one of
satisfied-with-a-version, not-installed, or version-conflict. -/
def ClassifiedOutcome (r : CheckOutcome) : Prop :=
  (r.isInstalled = true ∧ ∃ v : Version, r.statusMsg = verChars v) ∨
  (r.isInstalled = false ∧ r.statusMsg = notInstalledMsg) ∨
  (r.isInstalled = false ∧ ∃ v sps, r.statusMsg = conflictMsg v sps)

/-- C5: the version check never escapes its boundary: for every input spec
(malformed ones included) and every registry, the result is a classified
outcome; and when constraint parsing fails the spec is degraded to
best-effort name extraction — the lookup uses the canonicalized heuristic
name, no specifier is enforced, and the outcome is never a version
conflict. -/
theorem C5_check_total_and_degrades_malformed_specs
    (registry : List Char → Option Version) (spec : List Char) :
    ClassifiedOutcome (checkPackageInstalled registry spec) ∧
    (parseRequirement spec = none →
      checkPackageInstalled registry spec =
        match registry (canonicalizeName (extractNameHeuristic spec)) with
        | none => ⟨false, notInstalledMsg, none⟩
        | some v => ⟨true, verChars v, none⟩) := by
  constructor
  · unfold ClassifiedOutcome checkPackageInstalled checkPackageInstalledAdvanced
    cases hp : parseRequirement spec with
    | none =>
      dsimp only
      cases registry (canonicalizeName (extractNameHeuristic spec)) with
      | none => exact Or.inr (Or.inl ⟨rfl, rfl⟩)
      | some v => exact Or.inl ⟨rfl, v, rfl⟩
    | some nsp =>
      dsimp only
      cases registry (canonicalizeName nsp.1) with
      | none => exact Or.inr (Or.inl ⟨rfl, rfl⟩)
      | some v =>
        by_cases hs : nsp.2.isEmpty = true
        · simp only [hs, Bool.not_true, Bool.false_eq_true, if_false]
          refine Or.inl ⟨?_, v, ?_⟩ <;> simp
        · simp only [Bool.not_eq_true] at hs
          simp only [hs, Bool.not_false, if_true]
          by_cases hc : specSetContains nsp.2 v = true
          · rw [if_pos hc]
            exact Or.inl ⟨rfl, v, rfl⟩
          · rw [if_neg hc]
            exact Or.inr (Or.inr ⟨rfl, v, nsp.2, rfl⟩)
  · intro hp
    unfold checkPackageInstalled checkPackageInstalledAdvanced
    rw [hp]
    dsimp only
    cases registry (canonicalizeName (extractNameHeuristic spec)) with
    | none => rfl
    | some v => rfl

/-- Witness for C5 at the malformed spec "foo==" against an empty registry:
the outcome is classified, and equals the not-installed outcome of the
degraded heuristic-name path. -/
theorem C5_check_total_and_degrades_malformed_specs_witness :
    ClassifiedOutcome (checkPackageInstalled (fun _ => none) "foo==".toList) ∧
    checkPackageInstalled (fun _ => none) "foo==".toList =
      ⟨false, notInstalledMsg, none⟩ :=
  ⟨(C5_check_total_and_degrades_malformed_specs (fun _ => none) "foo==".toList).1,
   (C5_check_total_and_degrades_malformed_specs (fun _ => none) "foo==".toList).2
     (by decide)⟩

/-- Entry of the `satisfied` bucket of `analyze_dependencies` (line 184). -/
structure SatEntry where
  module : List Char
  packageSpec : List Char
  installedVersion : List Char
deriving DecidableEq

/-- Entry of the `to_install` bucket (line 187). -/
structure InstEntry where
  module : List Char
  packageSpec : List Char
  reason : List Char
deriving DecidableEq

/-- Entry of the `errors` bucket (line 190). -/
structure ErrEntry where
  module : List Char
  packageSpec : List Char
  error : List Char
deriving DecidableEq

/-- Result record of `analyze_dependencies`. -/
structure AnalysisResult where
  toInstall : List InstEntry
  satisfied : List SatEntry
  errors : List ErrEntry
  summaryLines : List (List Char)
deriving DecidableEq

/-- Classification of one package spec of one module (lines 179-191):
satisfied when installed; marked for installation when the status mentions
"Not installed" or "Version conflict"; otherwise a check error. -/
def analyzePackageStep (registry : List Char → Option Version)
    (moduleName : List Char) (acc : AnalysisResult) (packageSpec : List Char) :
    AnalysisResult :=
  let r := checkPackageInstalled registry packageSpec
  let requiredDisp :=
    match r.reqSpec with
    | some s => s
    | none => "any version".toList
  if r.isInstalled then
    { acc with
      satisfied := acc.satisfied ++ [⟨moduleName, packageSpec, r.statusMsg⟩],
      summaryLines := acc.summaryLines ++
        ["  - ✅ ".toList ++ packageSpec ++ " (Installed: ".toList ++ r.statusMsg ++
          ")".toList] }
  else if containsSub r.statusMsg notInstalledMsg ||
      containsSub r.statusMsg "Version conflict".toList then
    { acc with
      toInstall := acc.toInstall ++ [⟨moduleName, packageSpec, r.statusMsg⟩],
      summaryLines := acc.summaryLines ++
        ["  - ⚠️ ".toList ++ packageSpec ++ " (Required: ".toList ++ requiredDisp ++
          ", Status: ".toList ++ r.statusMsg ++ ") - Marked for installation.".toList] }
  else
    { acc with
      errors := acc.errors ++ [⟨moduleName, packageSpec, r.statusMsg⟩],
      summaryLines := acc.summaryLines ++
        ["  - ❌ ".toList ++ packageSpec ++ " (Error during check: ".toList ++
          r.statusMsg ++ ")".toList] }

/-- One module of the `analyze_dependencies` loop (lines 173-192). -/
def analyzeModuleStep (registry : List Char → Option Version)
    (acc : AnalysisResult) (mr : List Char × List (List Char)) : AnalysisResult :=
  let acc1 := { acc with summaryLines := acc.summaryLines ++
    ["Module: '".toList ++ mr.1 ++ "'".toList] }
  if mr.2.isEmpty then
    { acc1 with summaryLines := acc1.summaryLines ++
      ["  - No packages listed in its requirements.txt.".toList] }
  else
    let acc2 := mr.2.foldl (analyzePackageStep registry mr.1) acc1
    { acc2 with summaryLines := acc2.summaryLines ++ [[]] }

/-- `analyze_dependencies` (lines 160-201) on a given module-requirements
map (its `find_requirements` input is modelled separately; only the
module name and package list of each entry are read here). -/
def analyzeDependencies (registry : List Char → Option Version)
    (moduleReqs : List (List Char × List (List Char))) : AnalysisResult :=
  if moduleReqs.isEmpty then
    ⟨[], [], [],
     ["No 'requirements.txt' files found in any scanned addon modules.".toList]⟩
  else
    let header := "Found 'requirements.txt' in ".toList ++ natChars moduleReqs.length ++
      " module(s). Analyzing dependencies...\n".toList
    let res := moduleReqs.foldl (analyzeModuleStep registry) ⟨[], [], [], [header]⟩
    let res1 :=
      if res.toInstall.isEmpty && res.errors.isEmpty then
        { res with summaryLines := res.summaryLines ++
          ["\nAll discovered Python dependencies are satisfied.".toList] }
      else if !res.toInstall.isEmpty then
        { res with summaryLines := res.summaryLines ++
          ["\nFound ".toList ++ natChars res.toInstall.length ++
            " Python package(s) that need installation or update.".toList] }
      else res
    if !res1.errors.isEmpty then
      { res1 with summaryLines := res1.summaryLines ++
        ["\nEncountered ".toList ++ natChars res1.errors.length ++
          " error(s) while checking package statuses.".toList] }
    else res1

/-- The registry of C3's scenario: libfoo installed at 1.5.0, libbar absent. -/
def c3Registry : List Char → Option Version :=
  fun n => if n = "libfoo".toList then some [1, 5, 0] else none

/-- The module-requirements map of C3's scenario: one module whose
requirements file lists `libfoo>=1.2,<2.0` and `libbar`. -/
def c3ModuleReqs : List (List Char × List (List Char)) :=
  [("mod_a".toList, ["libfoo>=1.2,<2.0".toList, "libbar".toList])]

/-- C3: with requirement specs `libfoo>=1.2,<2.0` and `libbar`, and a
registry reporting libfoo at 1.5.0 and libbar absent, dependency analysis
classifies libfoo as satisfied with installed version 1.5.0 and libbar as
missing ("Not installed"), the to-install bucket contains exactly libbar,
and no check errors occur. -/
theorem C3_example_requirements_classification :
    (analyzeDependencies c3Registry c3ModuleReqs).satisfied =
      [⟨"mod_a".toList, "libfoo>=1.2,<2.0".toList, "1.5.0".toList⟩] ∧
    (analyzeDependencies c3Registry c3ModuleReqs).toInstall =
      [⟨"mod_a".toList, "libbar".toList, "Not installed".toList⟩] ∧
    (analyzeDependencies c3Registry c3ModuleReqs).errors = [] := by
  refine ⟨?_, ?_, ?_⟩ <;> decide

/-! Model of the requirements scan (`find_requirements`, lines 67-94, and
`_parse_requirements_file`, lines 55-65).  The filesystem is an explicit
input: each configured addons path carries either `none` (the path is not a
directory) or its directory listing; each listed module records whether it is
a directory with a manifest, and the content outcome of its
`requirements.txt` (`none`: no such file; `some (.ok lines)`: readable raw
lines; `some (.error e)`: opening/reading raises with message `e`).
Diagnostics (`_add_message`, which forwards to the logger) are collected as
(level, text) pairs. -/

/-- One directory entry of an addons path. -/
structure ModuleDirEntry where
  name : List Char
  isDir : Bool
  hasManifest : Bool
  reqFile : Option (Except (List Char) (List (List Char)))

/-- `os.path.join`. -/
def pathJoin (a b : List Char) : List Char := a ++ "/".toList ++ b

/-- Package-line extraction of `_parse_requirements_file` (lines 59-62):
strip each raw line, keep the non-empty ones not starting with `#`. -/
def parseReqLines (rawLines : List (List Char)) : List (List Char) :=
  (rawLines.map stripChars).filter (fun l => !l.isEmpty && !(headMatches l "#".toList))

/-- `_parse_requirements_file` (lines 55-65): a readable file yields its
package lines and no diagnostic; a read failure yields an empty package list
and one error-level diagnostic naming the file. -/
def parseRequirementsFile (filePath : List Char)
    (content : Except (List Char) (List (List Char))) :
    List (List Char) × List (List Char × List Char) :=
  match content with
  | .ok rawLines => (parseReqLines rawLines, [])
  | .error e =>
    ([],
     [("error".toList,
       "Error reading requirements file ".toList ++ filePath ++ ": ".toList ++ e)])

/-- Requirement-map entry of `find_requirements` (lines 87-91). -/
structure ReqEntry where
  path : List Char
  requirementsFile : List Char
  packages : List (List Char)
deriving DecidableEq

/-- Insert-or-overwrite of the Python dict keyed by module name. -/
def dictInsert {β : Type} : List (List Char × β) → List Char → β → List (List Char × β)
  | [], k, v => [(k, v)]
  | (k', v') :: rest, k, v =>
    if k' == k then (k, v) :: rest else (k', v') :: dictInsert rest k v

/-- Lookup in the dict model. -/
def dictLookup {β : Type} : List (List Char × β) → List Char → Option β
  | [], _ => none
  | (k', v') :: rest, k => if k' == k then some v' else dictLookup rest k

/-- Scan state: the module-requirements dict and the collected diagnostics. -/
abbrev ScanState := List (List Char × ReqEntry) × List (List Char × List Char)

/-- One module of the `find_requirements` loop (lines 79-91): only module
directories with a manifest and a requirements file are parsed, and a module
is added to the map only when its package list is non-empty. -/
def scanModuleStep (addonsPath : List Char) (st : ScanState)
    (m : ModuleDirEntry) : ScanState :=
  let modulePath := pathJoin addonsPath m.name
  if m.isDir && m.hasManifest then
    match m.reqFile with
    | none => st
    | some content =>
      let reqPath := pathJoin modulePath "requirements.txt".toList
      let pr := parseRequirementsFile reqPath content
      let st1 : ScanState := (st.1, st.2 ++ pr.2)
      if pr.1.isEmpty then st1
      else (dictInsert st1.1 m.name ⟨modulePath, reqPath, pr.1⟩, st1.2)
  else st

/-- `find_requirements` (lines 67-94): no configured paths yields a warning;
a path that is not a directory yields a warning and is skipped; module
entries of each directory are processed in listing order. -/
def findRequirements
    (addonsPaths : List (List Char × Option (List ModuleDirEntry))) : ScanState :=
  if addonsPaths.isEmpty then
    ([], [("warning".toList, "No addons paths to scan.".toList)])
  else
    addonsPaths.foldl
      (fun st ap =>
        match ap.2 with
        | none =>
          (st.1, st.2 ++
            [("warning".toList,
              "Addons path does not exist or is not a directory: ".toList ++ ap.1)])
        | some mods => mods.foldl (scanModuleStep ap.1) st)
      ([], [])

/-- A module whose requirements read does not fail (no file, or readable). -/
def moduleReadOk (m : ModuleDirEntry) : Bool :=
  match m.reqFile with
  | some (.error _) => false
  | _ => true

lemma scanModuleStep_msgs (ap : List Char) (m : ModuleDirEntry)
    (d : List (List Char × ReqEntry)) (msgs : List (List Char × List Char)) :
    scanModuleStep ap (d, msgs) m =
      ((scanModuleStep ap (d, []) m).1,
        msgs ++ (scanModuleStep ap (d, []) m).2) := by
  unfold scanModuleStep
  by_cases hdm : (m.isDir && m.hasManifest) = true
  · rw [if_pos hdm, if_pos hdm]
    cases hr : m.reqFile with
    | none => simp
    | some content =>
      cases content with
      | ok rawLines =>
        dsimp only [parseRequirementsFile]
        by_cases hp : (parseReqLines rawLines).isEmpty = true
        · simp [hp]
        · simp [hp]
      | error e =>
        dsimp only [parseRequirementsFile]
        simp
  · rw [if_neg hdm, if_neg hdm]
    simp

lemma scanModuleStep_ok_no_msgs (ap : List Char) (m : ModuleDirEntry)
    (d : List (List Char × ReqEntry)) (h : moduleReadOk m = true) :
    (scanModuleStep ap (d, []) m).2 = [] := by
  unfold scanModuleStep
  by_cases hdm : (m.isDir && m.hasManifest) = true
  · rw [if_pos hdm]
    cases hr : m.reqFile with
    | none => rfl
    | some content =>
      cases content with
      | ok rawLines =>
        dsimp only [parseRequirementsFile]
        by_cases hp : (parseReqLines rawLines).isEmpty = true
        · simp [hp]
        · simp [hp]
      | error e =>
        rw [moduleReadOk, hr] at h
        exact absurd h (by simp)
  · rw [if_neg hdm]

lemma scanFold_msgs (ap : List Char) (mods : List ModuleDirEntry) :
    ∀ (d : List (List Char × ReqEntry)) (msgs : List (List Char × List Char)),
    mods.foldl (scanModuleStep ap) (d, msgs) =
      ((mods.foldl (scanModuleStep ap) (d, []) ).1,
        msgs ++ (mods.foldl (scanModuleStep ap) (d, []) ).2) := by
  induction mods with
  | nil => intro d msgs; simp
  | cons m t ih =>
    intro d msgs
    rw [List.foldl_cons, List.foldl_cons, scanModuleStep_msgs ap m d msgs]
    generalize scanModuleStep ap (d, []) m = s
    obtain ⟨d1, m1⟩ := s
    rw [ih d1 (msgs ++ m1), ih d1 m1]
    simp

lemma scanFold_ok_no_msgs (ap : List Char) (mods : List ModuleDirEntry)
    (h : ∀ m ∈ mods, moduleReadOk m = true) :
    ∀ d : List (List Char × ReqEntry),
    (mods.foldl (scanModuleStep ap) (d, []) ).2 = [] := by
  induction mods with
  | nil => intro d; rfl
  | cons m t ih =>
    intro d
    rw [List.foldl_cons, scanModuleStep_msgs ap m d [],
      scanModuleStep_ok_no_msgs ap m d (h m (List.mem_cons_self m t))]
    exact ih (fun x hx => h x (List.mem_cons_of_mem m hx)) _

/-- The error-level diagnostic a failing requirements read produces for a
module of an addons path. -/
def reqReadErrorMsg (ap name e : List Char) : List Char × List Char :=
  ("error".toList,
   "Error reading requirements file ".toList ++
     pathJoin (pathJoin ap name) "requirements.txt".toList ++ ": ".toList ++ e)

lemma scanModuleStep_bad (ap : List Char) (m : ModuleDirEntry) (e : List Char)
    (d : List (List Char × ReqEntry)) (msgs : List (List Char × List Char))
    (h1 : m.isDir = true) (h2 : m.hasManifest = true)
    (h3 : m.reqFile = some (Except.error e)) :
    scanModuleStep ap (d, msgs) m = (d, msgs ++ [reqReadErrorMsg ap m.name e]) := by
  unfold scanModuleStep
  rw [h1, h2, h3]
  rfl

/-- C6: when a single module's requirements file is malformed (its read
raises), the scan of the addons path records exactly one error-level
diagnostic naming that module's requirements file, that module contributes an
empty package list and hence no map entry, and the map equals the map of the
same scan without the bad module — all other modules' requirement sets are
unaffected and the scan completes. -/
theorem C6_single_bad_requirements_file_isolated
    (ap e : List Char) (pre post : List ModuleDirEntry) (bad : ModuleDirEntry)
    (h1 : bad.isDir = true) (h2 : bad.hasManifest = true)
    (h3 : bad.reqFile = some (Except.error e))
    (h4 : ∀ m ∈ pre ++ post, moduleReadOk m = true) :
    findRequirements [(ap, some (pre ++ bad :: post))] =
      ((findRequirements [(ap, some (pre ++ post))]).1,
        [reqReadErrorMsg ap bad.name e]) ∧
    (parseRequirementsFile (pathJoin (pathJoin ap bad.name) "requirements.txt".toList)
        (Except.error e)).1 = [] := by
  have hpre : ∀ m ∈ pre, moduleReadOk m = true :=
    fun m hm => h4 m (List.mem_append_left post hm)
  have hpost : ∀ m ∈ post, moduleReadOk m = true :=
    fun m hm => h4 m (List.mem_append_right pre hm)
  have hfr :
      ∀ mods : List ModuleDirEntry,
        findRequirements [(ap, some mods)] =
          mods.foldl (scanModuleStep ap) ([], []) := by
    intro mods
    rfl
  constructor
  · rw [hfr, hfr, List.foldl_append, List.foldl_append, List.foldl_cons]
    set pstate := pre.foldl (scanModuleStep ap) ([], []) with hp
    have hpmsgs : pstate.2 = [] := scanFold_ok_no_msgs ap pre hpre []
    have hpair : pstate = (pstate.1, []) := by
      rw [← hpmsgs]
    rw [hpair, scanModuleStep_bad ap bad e pstate.1 [] h1 h2 h3]
    rw [scanFold_msgs ap post pstate.1 ([] ++ [reqReadErrorMsg ap bad.name e])]
    rw [scanFold_ok_no_msgs ap post hpost pstate.1]
    simp
  · rfl

/-- Witness for C6 at a concrete two-good-one-bad listing: the good modules'
entries survive unchanged, and the single diagnostic names the bad module's
requirements file. -/
theorem C6_single_bad_requirements_file_isolated_witness :
    (findRequirements
        [("/addons".toList, some
          [⟨"mod1".toList, true, true, some (Except.ok ["reqone".toList])⟩,
           ⟨"modbad".toList, true, true, some (Except.error "boom".toList)⟩,
           ⟨"mod2".toList, true, true, some (Except.ok ["reqtwo".toList])⟩])] =
      ((findRequirements
          [("/addons".toList, some
            [⟨"mod1".toList, true, true, some (Except.ok ["reqone".toList])⟩,
             ⟨"mod2".toList, true, true, some (Except.ok ["reqtwo".toList])⟩])]).1,
        [reqReadErrorMsg "/addons".toList "modbad".toList "boom".toList])) ∧
    (parseRequirementsFile
        (pathJoin (pathJoin "/addons".toList "modbad".toList) "requirements.txt".toList)
        (Except.error "boom".toList)).1 = [] :=
  C6_single_bad_requirements_file_isolated "/addons".toList "boom".toList
    [⟨"mod1".toList, true, true, some (Except.ok ["reqone".toList])⟩]
    [⟨"mod2".toList, true, true, some (Except.ok ["reqtwo".toList])⟩]
    ⟨"modbad".toList, true, true, some (Except.error "boom".toList)⟩
    rfl rfl rfl (by decide)

/-! Model of `install_packages` (`addon_requirements_checker.py` lines
203-246).  The `pip` subprocess boundary is an oracle
`invoke : spec → timeout → PipOutcome`: a completed run carries the exit code
and the captured stdout/stderr, a timeout (`subprocess.TimeoutExpired` from
`communicate`) carries whether the process is still running when polled, and
`raised` models any other exception from the invocation.  `pipExe` is the
joined `[sys.executable, -m, pip]` command text, an external value. -/

/-- Outcome of one `pip install` invocation at the subprocess boundary. -/
inductive PipOutcome where
  | completed (returncode : Int) (stdout stderr : List Char)
  | timedOut (stillRunning : Bool)
  | raised (msg : List Char)

/-- Python `str.splitlines` on LF for captured subprocess text. -/
def splitLinesC (s : List Char) : List (List Char) :=
  match s with
  | [] => []
  | c :: rest =>
    if c == '\n' then [] :: splitLinesC rest
    else
      match splitLinesC rest with
      | [] => [[c]]
      | l :: ls => (c :: l) :: ls

/-- Decimal rendering of an exit code. -/
def intChars (i : Int) : List Char := (toString i).toList

/-- The failure text recorded for a non-zero exit code (line 234). -/
def pipFailureText (rc : Int) (stdout stderr : List Char) : List Char :=
  "PIP Return Code: ".toList ++ intChars rc ++ "\nSTDOUT:\n".toList ++ stdout ++
    "\nSTDERR:\n".toList ++ stderr

/-- The failure text recorded on timeout (line 237). -/
def timeoutFailureText : List Char := "Installation timed out after 5 minutes.".toList

/-- Accumulated state of `install_packages`: the three source buckets plus an
instrumentation `calls` trace recording each subprocess invocation with its
timeout, in order. -/
structure InstallState where
  success : List (List Char)
  failed : List (List Char × List Char)
  logLines : List (List Char)
  calls : List (List Char × Nat)

/-- One spec of the `install_packages` loop (lines 215-244): invoke pip with
a 300-second timeout; log the captured output; record a zero exit in
`success`; record a non-zero exit in `failed` with the captured output
attached; on timeout kill the process if still running and record a timeout
failure; record any other exception's text in `failed`.  No branch escapes
the loop. -/
def installStep (invoke : List Char → Nat → PipOutcome) (st : InstallState)
    (packageSpec : List Char) : InstallState :=
  let st0 := { st with
    logLines := st.logLines ++
      ["\nAttempting to install/update: ".toList ++ packageSpec ++ "...".toList],
    calls := st.calls ++ [(packageSpec, 300)] }
  match invoke packageSpec 300 with
  | .completed rc out err =>
    let st1 := { st0 with
      logLines := st0.logLines ++
        ["--- PIP STDOUT for ".toList ++ packageSpec ++ " ---".toList] ++
        splitLinesC out ++
        ["--- PIP STDERR for ".toList ++ packageSpec ++ " ---".toList] ++
        splitLinesC err ++
        ["-----------------------------".toList] }
    if rc == 0 then
      { st1 with
        logLines := st1.logLines ++
          ["Successfully processed ".toList ++ packageSpec ++ ".".toList],
        success := st1.success ++ [packageSpec] }
    else
      { st1 with
        logLines := st1.logLines ++
          ["Failed to process ".toList ++ packageSpec ++ ". PIP Return Code: ".toList ++
            intChars rc],
        failed := dictInsert st1.failed packageSpec (pipFailureText rc out err) }
  | .timedOut stillRunning =>
    let st1 := { st0 with
      logLines := st0.logLines ++
        ["Timeout expired while trying to install ".toList ++ packageSpec ++ ".".toList],
      failed := dictInsert st0.failed packageSpec timeoutFailureText }
    if stillRunning then
      { st1 with logLines := st1.logLines ++ ["Killed pip process due to timeout.".toList] }
    else st1
  | .raised m =>
    { st0 with
      logLines := st0.logLines ++
        ["An unexpected error occurred while trying to install ".toList ++
          packageSpec ++ ": ".toList ++ m],
      failed := dictInsert st0.failed packageSpec m }

/-- `install_packages` (lines 203-246): an empty batch is only logged;
otherwise every spec is processed sequentially by `installStep`. -/
def installPackages (invoke : List Char → Nat → PipOutcome) (pipExe : List Char)
    (specs : List (List Char)) : InstallState :=
  if specs.isEmpty then
    ⟨[], [], ["No packages specified for installation.".toList], []⟩
  else
    specs.foldl (installStep invoke)
      ⟨[], [], ["Using pip: ".toList ++ pipExe], []⟩

/-- Whether an invocation outcome is a success (exit code 0). -/
def pipSucceeds : PipOutcome → Bool
  | .completed rc _ _ => rc == 0
  | _ => false

/-- The failure text `install_packages` records for an outcome, `none` for a
success. -/
def pipExpectedFailure : PipOutcome → Option (List Char)
  | .completed rc out err => if rc == 0 then none else some (pipFailureText rc out err)
  | .timedOut _ => some timeoutFailureText
  | .raised m => some m

lemma dictLookup_insert {β : Type} (d : List (List Char × β)) (k k' : List Char)
    (v : β) :
    dictLookup (dictInsert d k v) k' = if k' = k then some v else dictLookup d k' := by
  induction d with
  | nil =>
    by_cases h : k' = k
    · subst h
      simp [dictInsert, dictLookup]
    · have hb : (k == k') = false := by
        simpa using fun hk : k = k' => h hk.symm
      simp [dictInsert, dictLookup, hb, h]
  | cons p rest ih =>
    obtain ⟨pk, pv⟩ := p
    by_cases hpk : pk = k
    · subst hpk
      by_cases h : k' = pk
      · subst h
        simp [dictInsert, dictLookup]
      · have hb : (pk == k') = false := by
          simpa using fun hk : pk = k' => h hk.symm
        simp [dictInsert, dictLookup, hb, h]
    · have hb : (pk == k) = false := by simpa using hpk
      by_cases h : k' = pk
      · subst h
        have hkk : ¬k' = k := fun hk => hpk (hk ▸ rfl)
        simp [dictInsert, dictLookup, hb, hkk]
      · have hb2 : (pk == k') = false := by
          simpa using fun hk : pk = k' => h hk.symm
        simp [dictInsert, dictLookup, hb, hb2, ih]

lemma installStep_calls (invoke : List Char → Nat → PipOutcome) (st : InstallState)
    (s : List Char) :
    (installStep invoke st s).calls = st.calls ++ [(s, 300)] := by
  unfold installStep
  cases invoke s 300 with
  | completed rc out err =>
    dsimp only
    by_cases h : (rc == 0) = true
    · rw [if_pos h]
    · rw [if_neg h]
  | timedOut b =>
    dsimp only
    by_cases h : b = true
    · rw [if_pos h]
    · rw [if_neg h]
  | raised m => rfl

lemma installStep_success (invoke : List Char → Nat → PipOutcome) (st : InstallState)
    (s : List Char) :
    (installStep invoke st s).success =
      st.success ++ (if pipSucceeds (invoke s 300) then [s] else []) := by
  unfold installStep pipSucceeds
  cases invoke s 300 with
  | completed rc out err =>
    dsimp only
    by_cases h : (rc == 0) = true
    · rw [if_pos h, if_pos h]
    · rw [if_neg h, if_neg h]
      simp
  | timedOut b =>
    dsimp only
    by_cases h : b = true
    · rw [if_pos h]
      simp
    · rw [if_neg h]
      simp
  | raised m => simp

lemma installStep_failed (invoke : List Char → Nat → PipOutcome) (st : InstallState)
    (s k : List Char) :
    dictLookup (installStep invoke st s).failed k =
      if k = s then
        (match pipExpectedFailure (invoke s 300) with
         | some m => some m
         | none => dictLookup st.failed k)
      else dictLookup st.failed k := by
  unfold installStep pipExpectedFailure
  cases invoke s 300 with
  | completed rc out err =>
    dsimp only
    by_cases h : (rc == 0) = true
    · rw [if_pos h, if_pos h]
      dsimp only
      by_cases hk : k = s
      · rw [if_pos hk]
      · rw [if_neg hk]
    · rw [if_neg h, if_neg h]
      dsimp only
      rw [dictLookup_insert]
  | timedOut b =>
    dsimp only
    by_cases h : b = true
    · rw [if_pos h]
      dsimp only
      rw [dictLookup_insert]
    · rw [if_neg h]
      dsimp only
      rw [dictLookup_insert]
  | raised m =>
    dsimp only
    rw [dictLookup_insert]

lemma installFold_calls (invoke : List Char → Nat → PipOutcome)
    (specs : List (List Char)) :
    ∀ st : InstallState,
    (specs.foldl (installStep invoke) st).calls =
      st.calls ++ specs.map (fun s => (s, 300)) := by
  induction specs with
  | nil => intro st; simp
  | cons s t ih =>
    intro st
    rw [List.foldl_cons, ih (installStep invoke st s), installStep_calls]
    simp

lemma installFold_success (invoke : List Char → Nat → PipOutcome)
    (specs : List (List Char)) :
    ∀ st : InstallState,
    (specs.foldl (installStep invoke) st).success =
      st.success ++ specs.filter (fun s => pipSucceeds (invoke s 300)) := by
  induction specs with
  | nil => intro st; simp
  | cons s t ih =>
    intro st
    rw [List.foldl_cons, ih (installStep invoke st s), installStep_success,
      List.filter_cons]
    by_cases h : pipSucceeds (invoke s 300) = true
    · rw [if_pos h, if_pos h]
      simp
    · rw [if_neg h, if_neg h]
      simp

lemma installFold_failed (invoke : List Char → Nat → PipOutcome)
    (specs : List (List Char)) :
    ∀ (st : InstallState) (k : List Char),
    dictLookup (specs.foldl (installStep invoke) st).failed k =
      if k ∈ specs then
        (match pipExpectedFailure (invoke k 300) with
         | some m => some m
         | none => dictLookup st.failed k)
      else dictLookup st.failed k := by
  induction specs with
  | nil => intro st k; simp
  | cons s t ih =>
    intro st k
    rw [List.foldl_cons, ih (installStep invoke st s) k, installStep_failed]
    cases hE : pipExpectedFailure (invoke k 300) with
    | some m =>
      by_cases hk : k = s
      · subst hk
        by_cases ht : k ∈ t <;> simp [ht, hE, List.mem_cons]
      · by_cases ht : k ∈ t <;> simp [ht, hk, hE, List.mem_cons]
    | none =>
      by_cases hk : k = s
      · subst hk
        by_cases ht : k ∈ t <;> simp [ht, hE, List.mem_cons]
      · by_cases ht : k ∈ t <;> simp [ht, hk, hE, List.mem_cons]

/-- C4: for every invocation oracle and every ordered spec batch, the
orchestrator invokes the package manager exactly once per spec, in order,
each time with the 300-second timeout (the `calls` trace); the success bucket
collects exactly the specs whose invocation exited 0, in order; and every
spec's final `failed` entry is the outcome classification — absent for exit
0, the captured-output failure text for a non-zero exit, the timeout text for
a timeout (the kill of a still-running process stays inside the handler), and
the exception text otherwise — so no outcome escapes the orchestrator. -/
theorem C4_install_invocations_and_buckets (invoke : List Char → Nat → PipOutcome)
    (pipExe : List Char) (specs : List (List Char)) :
    (installPackages invoke pipExe specs).calls = specs.map (fun s => (s, 300)) ∧
    (installPackages invoke pipExe specs).success =
      specs.filter (fun s => pipSucceeds (invoke s 300)) ∧
    ∀ s ∈ specs, dictLookup (installPackages invoke pipExe specs).failed s =
      pipExpectedFailure (invoke s 300) := by
  cases specs with
  | nil => exact ⟨rfl, rfl, fun s hs => absurd hs (List.not_mem_nil s)⟩
  | cons a t =>
    have hunfold : installPackages invoke pipExe (a :: t) =
        (a :: t).foldl (installStep invoke)
          ⟨[], [], ["Using pip: ".toList ++ pipExe], []⟩ := by
      rw [installPackages]
      rfl
    refine ⟨?_, ?_, ?_⟩
    · rw [hunfold, installFold_calls]
      simp
    · rw [hunfold, installFold_success]
      simp
    · intro s hs
      rw [hunfold, installFold_failed, if_pos hs]
      cases hE : pipExpectedFailure (invoke s 300) with
      | some m => rfl
      | none => simp [dictLookup]

/-- Demo oracle for the C4 witness: spec "a" exits 0, spec "b" exits 1 with
captured output, spec "c" times out with the process still running. -/
def c4DemoInvoke : List Char → Nat → PipOutcome := fun s _ =>
  if s = "a".toList then .completed 0 "ok".toList []
  else if s = "b".toList then .completed 1 "out".toList "err".toList
  else .timedOut true

/-- Witness for C4 at a concrete three-spec batch against the demo oracle:
pip is called once per spec with timeout 300 and in order, "a" lands in the
success bucket, and "b" and "c" land in the failure bucket with the
non-zero-exit text and the timeout text respectively. -/
theorem C4_install_invocations_and_buckets_witness :
    (installPackages c4DemoInvoke "pip".toList
        ["a".toList, "b".toList, "c".toList]).calls =
      [("a".toList, 300), ("b".toList, 300), ("c".toList, 300)] ∧
    (installPackages c4DemoInvoke "pip".toList
        ["a".toList, "b".toList, "c".toList]).success = ["a".toList] ∧
    dictLookup (installPackages c4DemoInvoke "pip".toList
        ["a".toList, "b".toList, "c".toList]).failed "b".toList =
      some (pipFailureText 1 "out".toList "err".toList) ∧
    dictLookup (installPackages c4DemoInvoke "pip".toList
        ["a".toList, "b".toList, "c".toList]).failed "c".toList =
      some timeoutFailureText := by
  have h := C4_install_invocations_and_buckets c4DemoInvoke "pip".toList
    ["a".toList, "b".toList, "c".toList]
  refine ⟨h.1.trans (by decide), h.2.1.trans (by decide), ?_, ?_⟩
  · exact (h.2.2 "b".toList (by decide)).trans (by decide)
  · exact (h.2.2 "c".toList (by decide)).trans (by decide)

end NuevosAddons
